import Mathlib

/-!
A shallow embedding of the IR core in `src/cpp/IR.h` (namespace
`HalideInternal`): the reference-counted node heap, the handle
operations (`incref`, `decref`, copy, assignment, destruction), the
node catalog with its construction-time `assert` preconditions, and
the visitor dispatch protocol. Machine pointers become heap addresses
(`Nat`), the C++ `int ref_count` becomes an `Int`, fallible
constructors (an `assert` that fails aborts before a node is
observably produced) become `Option`-returning factories.
-/

set_option autoImplicit false

namespace HalideInternal

/-- Embeds `Type::t` — the scalar kind tag of `struct Type` (IR.h line 18). -/
inductive TypeKind where
  | Int
  | UInt
  | Float
  deriving DecidableEq, Repr

/-- Embeds `struct Type` (IR.h lines 17-21).  Named `HType` because `Type` is a
Lean keyword; fields keep the source names. -/
structure HType where
  t : TypeKind
  bits : Int
  width : Int
  deriving DecidableEq, Repr

/-- Embeds `Call::CallType` (IR.h line 328). -/
inductive CallType where
  | Image
  | Extern
  | Halide
  deriving DecidableEq, Repr

/-- Embeds `For::ForType` (IR.h line 400). -/
inductive ForType where
  | Serial
  | Parallel
  | Vectorized
  | Unrolled
  deriving DecidableEq, Repr

/-- A node address.  In the C++ source a node is identified by its
allocation address (`const IRNode *`); here addresses are naturals
handed out by the heap allocator. -/
abbrev Addr := Nat

/-- Embeds `IRHandle`'s single data member `const IRNode *node` (IR.h line 57):
either the null pointer (`none`) or the address of a node. -/
structure Handle where
  node : Option Addr
  deriving DecidableEq, Repr

/-- Embeds `IRHandle::defined` (IR.h lines 94-96): true iff the pointer is
non-null. -/
def Handle.defined (h : Handle) : Bool :=
  h.node.isSome

/-- Embeds `IRHandle::sameAs` (IR.h lines 98-100): pointer equality of the two
`node` members. -/
def Handle.sameAs (h other : Handle) : Bool :=
  h.node = other.node

/-- The per-kind payload of each concrete node struct of the catalog
(IR.h lines 119-474): one constructor per concrete `ExprNode`/`StmtNode`
subclass, carrying exactly that struct's fields.  Child `Expr`/`Stmt`
members are `Handle`s.  `FloatImm::value` is a C++ `float` the header
never computes with; it is carried here as its uninterpreted stored
representation. -/
inductive NodeData where
  | IntImm (value : Int)
  | FloatImm (value : Int)
  | Cast (type : HType) (value : Handle)
  | Var (type : HType) (name : String)
  | Add (a b : Handle)
  | Sub (a b : Handle)
  | Mul (a b : Handle)
  | Div (a b : Handle)
  | Mod (a b : Handle)
  | Min (a b : Handle)
  | Max (a b : Handle)
  | EQ (a b : Handle)
  | NE (a b : Handle)
  | LT (a b : Handle)
  | LE (a b : Handle)
  | GT (a b : Handle)
  | GE (a b : Handle)
  | And (a b : Handle)
  | Or (a b : Handle)
  | Not (a : Handle)
  | Select (condition true_value false_value : Handle)
  | Load (type : HType) (buffer : String) (index : Handle)
  | Ramp (base stride : Handle) (width : Int)
  | Call (type : HType) (buffer : String) (args : List Handle) (call_type : CallType)
  | Let (name : String) (value body : Handle)
  | LetStmt (name : String) (value : Handle) (body : Handle)
  | PrintStmt (pfx : String) (args : List Handle)
  | AssertStmt (condition : Handle) (message : String)
  | Pipeline (buffer : String) (produce update consume : Handle)
  | For (name : String) (min extent : Handle) (for_type : ForType) (body : Handle)
  | Store (buffer : String) (value index : Handle)
  | Provide (buffer : String) (value : Handle) (args : List Handle)
  | Allocate (buffer : String) (type : HType) (size : Handle) (body : Handle)
  | Realize (buffer : String) (type : HType) (bounds : List (Handle × Handle)) (body : Handle)
  | Block (first rest : Handle)
  deriving DecidableEq, Repr

/-- The child handles stored in a node's `Expr`/`Stmt` (and
`vector<Expr>` / bounds) members, in declaration order.  When `delete
node` runs in `IRHandle::decref` (IR.h line 67), the destructors of
exactly these members run and decref their referents. -/
def NodeData.children : NodeData → List Handle
  | .IntImm _ => []
  | .FloatImm _ => []
  | .Cast _ v => [v]
  | .Var _ _ => []
  | .Add a b => [a, b]
  | .Sub a b => [a, b]
  | .Mul a b => [a, b]
  | .Div a b => [a, b]
  | .Mod a b => [a, b]
  | .Min a b => [a, b]
  | .Max a b => [a, b]
  | .EQ a b => [a, b]
  | .NE a b => [a, b]
  | .LT a b => [a, b]
  | .LE a b => [a, b]
  | .GT a b => [a, b]
  | .GE a b => [a, b]
  | .And a b => [a, b]
  | .Or a b => [a, b]
  | .Not a => [a]
  | .Select c t f => [c, t, f]
  | .Load _ _ i => [i]
  | .Ramp b s _ => [b, s]
  | .Call _ _ args _ => args
  | .Let _ v b => [v, b]
  | .LetStmt _ v b => [v, b]
  | .PrintStmt _ args => args
  | .AssertStmt c _ => [c]
  | .Pipeline _ p u c => [p, u, c]
  | .For _ m e _ b => [m, e, b]
  | .Store _ v i => [v, i]
  | .Provide _ v args => v :: args
  | .Realize _ _ bounds b => (bounds.map Prod.fst) ++ (bounds.map Prod.snd) ++ [b]
  | .Allocate _ _ s b => [s, b]
  | .Block f r => [f, r]

/-- One heap cell: a live `IRNode` allocation.  `ref_count` is the
`mutable int ref_count` of `struct IRNode` (IR.h line 32), initialised
to 0 by the `IRNode` constructor (line 30); `data` is the concrete
subclass's fields. -/
structure Cell where
  data : NodeData
  ref_count : Int
  deriving DecidableEq, Repr

/-- First-match lookup in an address/cell association list. -/
def lookupCells : List (Addr × Cell) → Addr → Option Cell
  | [], _ => none
  | (k, c) :: rest, a => if k = a then some c else lookupCells rest a

/-- Replace the cell stored at an address (every entry carrying that
key), leaving the key set unchanged. -/
def setCells : List (Addr × Cell) → Addr → Cell → List (Addr × Cell)
  | [], _, _ => []
  | (k, c) :: rest, a, c0 =>
      if k = a then (k, c0) :: setCells rest a c0 else (k, c) :: setCells rest a c0

/-- Drop every entry carrying the given address (deallocation). -/
def removeCells : List (Addr × Cell) → Addr → List (Addr × Cell)
  | [], _ => []
  | (k, c) :: rest, a =>
      if k = a then removeCells rest a else (k, c) :: removeCells rest a

/-- The store of live nodes.  `next` is the next fresh address the
allocator (`new` in C++) will hand out. -/
structure Heap where
  next : Addr
  cells : List (Addr × Cell)
  deriving DecidableEq, Repr

/-- The empty heap. -/
def Heap.empty : Heap := ⟨0, []⟩

/-- Dereference an address. -/
def Heap.lookupCell (H : Heap) (a : Addr) : Option Cell :=
  lookupCells H.cells a

/-- Overwrite the cell at an address. -/
def Heap.setCell (H : Heap) (a : Addr) (c : Cell) : Heap :=
  ⟨H.next, setCells H.cells a c⟩

/-- Deallocate the cell at an address. -/
def Heap.removeCell (H : Heap) (a : Addr) : Heap :=
  ⟨H.next, removeCells H.cells a⟩

/-- Embeds `new T(...)`: place a node with `ref_count = 0` (the `IRNode`
default constructor, IR.h line 30) at a fresh address. -/
def Heap.allocNode (H : Heap) (d : NodeData) : Heap × Addr :=
  (⟨H.next + 1, (H.next, ⟨d, 0⟩) :: H.cells⟩, H.next)

/-- Embeds `IRHandle::incref` (IR.h lines 58-62): if the pointer is non-null,
`node->ref_count++`.  A dangling pointer is undefined behaviour in the
source; here the lookup simply fails and the heap is unchanged. -/
def Heap.incref (H : Heap) (n : Option Addr) : Heap :=
  match n with
  | none => H
  | some a =>
    match H.lookupCell a with
    | none => H
    | some c => H.setCell a ⟨c.data, c.ref_count + 1⟩

/-- An upper bound on the number of decref steps any cascade starting
from this heap can take: one per initial work item is supplied by the
caller, one per live cell plus one per stored child handle here. -/
def Heap.fuelBound (H : Heap) : Nat :=
  H.cells.foldl (fun acc e => acc + 1 + e.2.data.children.length) 1

/-- The recursive deallocation cascade: `delete node` (IR.h line 67)
runs the member destructors of the node's `Expr`/`Stmt` fields, each an
`IRHandle::~IRHandle` calling `decref` (IR.h lines 74-76), depth first.
Each work item is a `node` pointer value; a pointer that is null, or
whose cell is already gone, decrefs nothing. -/
def decrefWork : Nat → Heap → List (Option Addr) → Heap
  | 0, H, _ => H
  | _ + 1, H, [] => H
  | fuel + 1, H, n :: rest =>
    match n with
    | none => decrefWork fuel H rest
    | some a =>
      match H.lookupCell a with
      | none => decrefWork fuel H rest
      | some c =>
        if c.ref_count - 1 = 0 then
          decrefWork fuel (H.removeCell a) ((c.data.children.map Handle.node) ++ rest)
        else
          decrefWork fuel (H.setCell a ⟨c.data, c.ref_count - 1⟩) rest

/-- Embeds `IRHandle::decref` (IR.h lines 63-71): if the pointer is non-null,
`node->ref_count--`; if the count reaches zero, `delete node` (which
cascades into the member destructors) and `node = NULL`.  Returns the
updated heap together with the handle as its `node` member stands after
the call. -/
def Heap.decref (H : Heap) (h : Handle) : Heap × Handle :=
  match h.node with
  | none => (H, h)
  | some a =>
    match H.lookupCell a with
    | none => (H, h)
    | some c =>
      if c.ref_count - 1 = 0 then
        (decrefWork H.fuelBound (H.removeCell a) (c.data.children.map Handle.node),
         ⟨none⟩)
      else
        (H.setCell a ⟨c.data, c.ref_count - 1⟩, h)

/-- Embeds `IRHandle::IRHandle(const IRNode *n)` (IR.h lines 78-80): adopt the
pointer, then `incref`. -/
def Heap.fromNode (H : Heap) (a : Addr) : Heap × Handle :=
  (H.incref (some a), ⟨some a⟩)

/-- The copy constructor `IRHandle(const IRHandle &other)` (IR.h lines
81-83): alias `other.node`, then `incref`. -/
def Heap.copyHandle (H : Heap) (h : Handle) : Heap × Handle :=
  (H.incref h.node, ⟨h.node⟩)

/-- Embeds `IRHandle::~IRHandle` (IR.h lines 74-76): `decref`. -/
def Heap.destroyHandle (H : Heap) (h : Handle) : Heap :=
  (H.decref h).1

/-- Embeds `IRHandle::operator=` (IR.h lines 84-89) when `other` is a distinct
object: `decref()` the current referent, overwrite `node` with
`other.node`, `incref()` it. -/
def Heap.assignHandle (H : Heap) (this other : Handle) : Heap × Handle :=
  let H1 := (H.decref this).1
  (H1.incref other.node, ⟨other.node⟩)

/-- Embeds `IRHandle::operator=` (IR.h lines 84-89) when `other` aliases
`*this` (self-assignment): after `decref()` runs, `other.node` is this
very object's `node` member — nulled out if `decref` just deleted the
node — so that is the value `node = other.node; incref();` sees. -/
def Heap.selfAssignHandle (H : Heap) (h : Handle) : Heap × Handle :=
  let r := H.decref h
  (r.1.incref r.2.node, ⟨r.2.node⟩)

/-- Build a node and wrap it in its first handle, the
`Expr(const BaseExprNode *)` / `Stmt(const BaseStmtNode *)` pattern
(IR.h lines 105, 115): allocate with `ref_count = 0`, then the handle
constructor increfs it to 1. -/
def Heap.mkHandle (H : Heap) (d : NodeData) : Heap × Handle :=
  let r := H.allocNode d
  r.1.fromNode r.2

/-! ## The node catalog's validating constructors

Each C++ constructor initialises the struct's fields and then `assert`s
its preconditions (required children `defined()`, `Ramp`'s `w > 0`).  A
failed `assert` aborts before the node is observably produced, so each
constructor is embedded as an `Option`-returning factory: `none` is the
precondition violation, `some` carries the fields exactly as stored. -/

/-- Embeds `IntImm::IntImm` (IR.h line 122): no precondition. -/
def IntImm.make (v : Int) : Option NodeData :=
  some (.IntImm v)

/-- Embeds `FloatImm::FloatImm` (IR.h line 128): no precondition. -/
def FloatImm.make (v : Int) : Option NodeData :=
  some (.FloatImm v)

/-- Embeds `Cast::Cast` (IR.h lines 135-137): asserts `v.defined()`. -/
def Cast.make (t : HType) (v : Handle) : Option NodeData :=
  if v.defined then some (.Cast t v) else none

/-- Embeds `Var::Var` (IR.h line 144): no precondition. -/
def Var.make (t : HType) (n : String) : Option NodeData :=
  some (.Var t n)

/-- Embeds `Add::Add` (IR.h lines 150-153): asserts both operands defined. -/
def Add.make (a b : Handle) : Option NodeData :=
  if a.defined && b.defined then some (.Add a b) else none

/-- Embeds `Sub::Sub` (IR.h lines 159-162). -/
def Sub.make (a b : Handle) : Option NodeData :=
  if a.defined && b.defined then some (.Sub a b) else none

/-- Embeds `Mul::Mul` (IR.h lines 168-171). -/
def Mul.make (a b : Handle) : Option NodeData :=
  if a.defined && b.defined then some (.Mul a b) else none

/-- Embeds `Div::Div` (IR.h lines 177-180). -/
def Div.make (a b : Handle) : Option NodeData :=
  if a.defined && b.defined then some (.Div a b) else none

/-- Embeds `Mod::Mod` (IR.h lines 186-189). -/
def Mod.make (a b : Handle) : Option NodeData :=
  if a.defined && b.defined then some (.Mod a b) else none

/-- Embeds `Min::Min` (IR.h lines 195-198). -/
def Min.make (a b : Handle) : Option NodeData :=
  if a.defined && b.defined then some (.Min a b) else none

/-- Embeds `Max::Max` (IR.h lines 204-207). -/
def Max.make (a b : Handle) : Option NodeData :=
  if a.defined && b.defined then some (.Max a b) else none

/-- Embeds `EQ::EQ` (IR.h lines 213-216). -/
def EQ.make (a b : Handle) : Option NodeData :=
  if a.defined && b.defined then some (.EQ a b) else none

/-- Embeds `NE::NE` (IR.h lines 222-225). -/
def NE.make (a b : Handle) : Option NodeData :=
  if a.defined && b.defined then some (.NE a b) else none

/-- Embeds `LT::LT` (IR.h lines 231-234). -/
def LT.make (a b : Handle) : Option NodeData :=
  if a.defined && b.defined then some (.LT a b) else none

/-- Embeds `LE::LE` (IR.h lines 240-243). -/
def LE.make (a b : Handle) : Option NodeData :=
  if a.defined && b.defined then some (.LE a b) else none

/-- Embeds `GT::GT` (IR.h lines 249-252). -/
def GT.make (a b : Handle) : Option NodeData :=
  if a.defined && b.defined then some (.GT a b) else none

/-- Embeds `GE::GE` (IR.h lines 258-261). -/
def GE.make (a b : Handle) : Option NodeData :=
  if a.defined && b.defined then some (.GE a b) else none

/-- Embeds `And::And` (IR.h lines 267-270). -/
def And.make (a b : Handle) : Option NodeData :=
  if a.defined && b.defined then some (.And a b) else none

/-- Embeds `Or::Or` (IR.h lines 276-279). -/
def Or.make (a b : Handle) : Option NodeData :=
  if a.defined && b.defined then some (.Or a b) else none

/-- Embeds `Not::Not` (IR.h lines 285-287): asserts `a.defined()`. -/
def Not.make (a : Handle) : Option NodeData :=
  if a.defined then some (.Not a) else none

/-- Embeds `Select::Select` (IR.h lines 293-298): asserts all three children
defined. -/
def Select.make (c t f : Handle) : Option NodeData :=
  if c.defined && t.defined && f.defined then some (.Select c t f) else none

/-- Embeds `Load::Load` (IR.h lines 306-309): asserts `index.defined()`. -/
def Load.make (t : HType) (b : String) (i : Handle) : Option NodeData :=
  if i.defined then some (.Load t b i) else none

/-- Embeds `Ramp::Ramp` (IR.h lines 316-321): asserts `base.defined()`,
`stride.defined()` and `w > 0`.  `w` is a C++ `int`. -/
def Ramp.make (b s : Handle) (w : Int) : Option NodeData :=
  if b.defined && s.defined && 0 < w then some (.Ramp b s w) else none

/-- Embeds `Call::Call` (IR.h lines 331-336): asserts every element of `args`
defined. -/
def Call.make (t : HType) (b : String) (args : List Handle) (ct : CallType) :
    Option NodeData :=
  if args.all Handle.defined then some (.Call t b args ct) else none

/-- Embeds `Let::Let` (IR.h lines 343-347): asserts `value` and `body`
defined. -/
def Let.make (n : String) (v b : Handle) : Option NodeData :=
  if v.defined && b.defined then some (.Let n v b) else none

/-- Embeds `LetStmt::LetStmt` (IR.h lines 355-359). -/
def LetStmt.make (n : String) (v b : Handle) : Option NodeData :=
  if v.defined && b.defined then some (.LetStmt n v b) else none

/-- Embeds `PrintStmt::PrintStmt` (IR.h lines 366-371): asserts every element
of `args` defined. -/
def PrintStmt.make (p : String) (args : List Handle) : Option NodeData :=
  if args.all Handle.defined then some (.PrintStmt p args) else none

/-- Embeds `AssertStmt::AssertStmt` (IR.h lines 379-382): asserts
`condition.defined()`. -/
def AssertStmt.make (c : Handle) (m : String) : Option NodeData :=
  if c.defined then some (.AssertStmt c m) else none

/-- Embeds `Pipeline::Pipeline` (IR.h lines 389-394): asserts `produce` and
`consume` defined; `update` is allowed to be null. -/
def Pipeline.make (b : String) (p u c : Handle) : Option NodeData :=
  if p.defined && c.defined then some (.Pipeline b p u c) else none

/-- Embeds `For::For` (IR.h lines 404-409): asserts `min`, `extent` and `body`
defined. -/
def For.make (n : String) (m e : Handle) (f : ForType) (b : Handle) :
    Option NodeData :=
  if m.defined && e.defined && b.defined then some (.For n m e f b) else none

/-- Embeds `Store::Store` (IR.h lines 416-420): asserts `value` and `index`
defined. -/
def Store.make (b : String) (v i : Handle) : Option NodeData :=
  if v.defined && i.defined then some (.Store b v i) else none

/-- Embeds `Provide::Provide` (IR.h lines 428-434): asserts `value` and every
element of `args` defined. -/
def Provide.make (b : String) (v : Handle) (args : List Handle) :
    Option NodeData :=
  if v.defined && args.all Handle.defined then some (.Provide b v args) else none

/-- Embeds `Allocate::Allocate` (IR.h lines 443-447): asserts `size` and
`body` defined. -/
def Allocate.make (buf : String) (t : HType) (s bod : Handle) :
    Option NodeData :=
  if s.defined && bod.defined then some (.Allocate buf t s bod) else none

/-- Embeds `Realize::Realize` (IR.h lines 456-463): asserts both components of
every bound and `body` defined. -/
def Realize.make (buf : String) (t : HType) (bounds : List (Handle × Handle))
    (bod : Handle) : Option NodeData :=
  if bounds.all (fun pr => pr.1.defined && pr.2.defined) && bod.defined then
    some (.Realize buf t bounds bod)
  else none

/-- Embeds `Block::Block` (IR.h lines 469-473): asserts `first` defined;
`rest` is allowed to be null. -/
def Block.make (f r : Handle) : Option NodeData :=
  if f.defined then some (.Block f r) else none

/-! ## The visitor dispatch protocol

`ExprNode<T>::accept` / `StmtNode<T>::accept` (IR.h lines 41-53) route
an `accept(v)` call to `v->visit((const T *)this)`: the one visitor
operation whose overload matches the node's concrete kind. -/

/-- Modelled from the spec: the `IRVisitor` interface is declared in
`IRVisitor.h`, which is not among the sources; per spec §4.3 it carries
exactly one operation per catalog kind, with no fallback or default
case.  Each operation receives the node it was dispatched on. -/
structure IRVisitor (α : Type) where
  visitIntImm : NodeData → α
  visitFloatImm : NodeData → α
  visitCast : NodeData → α
  visitVar : NodeData → α
  visitAdd : NodeData → α
  visitSub : NodeData → α
  visitMul : NodeData → α
  visitDiv : NodeData → α
  visitMod : NodeData → α
  visitMin : NodeData → α
  visitMax : NodeData → α
  visitEQ : NodeData → α
  visitNE : NodeData → α
  visitLT : NodeData → α
  visitLE : NodeData → α
  visitGT : NodeData → α
  visitGE : NodeData → α
  visitAnd : NodeData → α
  visitOr : NodeData → α
  visitNot : NodeData → α
  visitSelect : NodeData → α
  visitLoad : NodeData → α
  visitRamp : NodeData → α
  visitCall : NodeData → α
  visitLet : NodeData → α
  visitLetStmt : NodeData → α
  visitPrintStmt : NodeData → α
  visitAssertStmt : NodeData → α
  visitPipeline : NodeData → α
  visitFor : NodeData → α
  visitStore : NodeData → α
  visitProvide : NodeData → α
  visitAllocate : NodeData → α
  visitRealize : NodeData → α
  visitBlock : NodeData → α

/-- Embeds `ExprNode<T>::accept` / `StmtNode<T>::accept` (IR.h lines 41-53):
the node's concrete kind selects the one matching visitor operation and
hands it the node; there is no default case. -/
def NodeData.accept {α : Type} (p : NodeData) (v : IRVisitor α) : α :=
  match p with
  | .IntImm .. => v.visitIntImm p
  | .FloatImm .. => v.visitFloatImm p
  | .Cast .. => v.visitCast p
  | .Var .. => v.visitVar p
  | .Add .. => v.visitAdd p
  | .Sub .. => v.visitSub p
  | .Mul .. => v.visitMul p
  | .Div .. => v.visitDiv p
  | .Mod .. => v.visitMod p
  | .Min .. => v.visitMin p
  | .Max .. => v.visitMax p
  | .EQ .. => v.visitEQ p
  | .NE .. => v.visitNE p
  | .LT .. => v.visitLT p
  | .LE .. => v.visitLE p
  | .GT .. => v.visitGT p
  | .GE .. => v.visitGE p
  | .And .. => v.visitAnd p
  | .Or .. => v.visitOr p
  | .Not .. => v.visitNot p
  | .Select .. => v.visitSelect p
  | .Load .. => v.visitLoad p
  | .Ramp .. => v.visitRamp p
  | .Call .. => v.visitCall p
  | .Let .. => v.visitLet p
  | .LetStmt .. => v.visitLetStmt p
  | .PrintStmt .. => v.visitPrintStmt p
  | .AssertStmt .. => v.visitAssertStmt p
  | .Pipeline .. => v.visitPipeline p
  | .For .. => v.visitFor p
  | .Store .. => v.visitStore p
  | .Provide .. => v.visitProvide p
  | .Allocate .. => v.visitAllocate p
  | .Realize .. => v.visitRealize p
  | .Block .. => v.visitBlock p

/-- The name of a visitor operation, for a visitor that records which
operation fired. -/
inductive VisitOp where
  | IntImm | FloatImm | Cast | Var | Add | Sub | Mul | Div | Mod
  | Min | Max | EQ | NE | LT | LE | GT | GE | And | Or | Not
  | Select | Load | Ramp | Call | Let
  | LetStmt | PrintStmt | AssertStmt | Pipeline | For | Store | Provide
  | Allocate | Realize | Block
  deriving DecidableEq, Repr

/-- A visitor whose every operation just records that it fired. -/
def recorder : IRVisitor VisitOp where
  visitIntImm := fun _ => .IntImm
  visitFloatImm := fun _ => .FloatImm
  visitCast := fun _ => .Cast
  visitVar := fun _ => .Var
  visitAdd := fun _ => .Add
  visitSub := fun _ => .Sub
  visitMul := fun _ => .Mul
  visitDiv := fun _ => .Div
  visitMod := fun _ => .Mod
  visitMin := fun _ => .Min
  visitMax := fun _ => .Max
  visitEQ := fun _ => .EQ
  visitNE := fun _ => .NE
  visitLT := fun _ => .LT
  visitLE := fun _ => .LE
  visitGT := fun _ => .GT
  visitGE := fun _ => .GE
  visitAnd := fun _ => .And
  visitOr := fun _ => .Or
  visitNot := fun _ => .Not
  visitSelect := fun _ => .Select
  visitLoad := fun _ => .Load
  visitRamp := fun _ => .Ramp
  visitCall := fun _ => .Call
  visitLet := fun _ => .Let
  visitLetStmt := fun _ => .LetStmt
  visitPrintStmt := fun _ => .PrintStmt
  visitAssertStmt := fun _ => .AssertStmt
  visitPipeline := fun _ => .Pipeline
  visitFor := fun _ => .For
  visitStore := fun _ => .Store
  visitProvide := fun _ => .Provide
  visitAllocate := fun _ => .Allocate
  visitRealize := fun _ => .Realize
  visitBlock := fun _ => .Block

/-- Embeds `IRHandle::accept` (IR.h lines 91-93): `node->accept(v)` with no
emptiness guard.  A null `node` is a null dereference (undefined
behaviour), modelled as `none`; a live referent dispatches through its
concrete kind. -/
def Heap.acceptHandle {α : Type} (H : Heap) (h : Handle) (v : IRVisitor α) :
    Option α :=
  match h.node with
  | none => none
  | some a =>
    match H.lookupCell a with
    | none => none
    | some c => some (c.data.accept v)

/-- The handle-lifecycle operations a holder of a tree can perform
after construction (handle copies, assignments, destructions, and
`accept` dispatches — the last reads the heap without changing it). -/
inductive HandleOp where
  | copy (h : Handle)
  | assign (tgt other : Handle)
  | selfAssign (h : Handle)
  | destroy (h : Handle)
  | dispatch (h : Handle)

/-- Effect of one handle-lifecycle operation on the heap. -/
def runOp (H : Heap) : HandleOp → Heap
  | .copy h => (H.copyHandle h).1
  | .assign t o => (H.assignHandle t o).1
  | .selfAssign h => (H.selfAssignHandle h).1
  | .destroy h => H.destroyHandle h
  | .dispatch _ => H

/-- Effect of a sequence of handle-lifecycle operations. -/
def runOps (H : Heap) (ops : List HandleOp) : Heap :=
  ops.foldl runOp H

/-! ## Basic lemmas about the cell store -/

theorem lookupCells_setCells_self (l : List (Addr × Cell)) (a : Addr) (c0 : Cell) :
    lookupCells (setCells l a c0) a = (lookupCells l a).map (fun _ => c0) := by
  induction l with
  | nil => rfl
  | cons e rest ih =>
    obtain ⟨k, c⟩ := e
    by_cases hk : k = a
    · simp [setCells, lookupCells, hk]
    · simp [setCells, lookupCells, hk, ih]

theorem lookupCells_setCells_ne (l : List (Addr × Cell)) (a b : Addr) (c0 : Cell)
    (hab : b ≠ a) :
    lookupCells (setCells l a c0) b = lookupCells l b := by
  induction l with
  | nil => rfl
  | cons e rest ih =>
    obtain ⟨k, c⟩ := e
    by_cases hk : k = a
    · subst hk
      have hkb : k ≠ b := fun h => hab h.symm
      simp [setCells, lookupCells, hkb, ih]
    · by_cases hkb : k = b
      · subst hkb
        simp [setCells, lookupCells, hk, hab]
      · simp [setCells, lookupCells, hk, hkb, ih]

theorem lookupCells_removeCells_self (l : List (Addr × Cell)) (a : Addr) :
    lookupCells (removeCells l a) a = none := by
  induction l with
  | nil => rfl
  | cons e rest ih =>
    obtain ⟨k, c⟩ := e
    by_cases hk : k = a
    · simp [removeCells, hk, ih]
    · simp [removeCells, lookupCells, hk, ih]

theorem lookupCells_removeCells_ne (l : List (Addr × Cell)) (a b : Addr)
    (hab : b ≠ a) :
    lookupCells (removeCells l a) b = lookupCells l b := by
  induction l with
  | nil => rfl
  | cons e rest ih =>
    obtain ⟨k, c⟩ := e
    by_cases hk : k = a
    · subst hk
      have hkb : k ≠ b := fun h => hab h.symm
      simp [removeCells, lookupCells, hkb, ih]
    · by_cases hkb : k = b
      · subst hkb
        simp [removeCells, lookupCells, hk, hab]
      · simp [removeCells, lookupCells, hk, hkb, ih]

theorem Heap.lookupCell_setCell_self (H : Heap) (a : Addr) (c0 : Cell) :
    (H.setCell a c0).lookupCell a = (H.lookupCell a).map (fun _ => c0) :=
  lookupCells_setCells_self H.cells a c0

theorem Heap.lookupCell_setCell_ne (H : Heap) (a b : Addr) (c0 : Cell)
    (hab : b ≠ a) :
    (H.setCell a c0).lookupCell b = H.lookupCell b :=
  lookupCells_setCells_ne H.cells a b c0 hab

theorem Heap.lookupCell_removeCell_self (H : Heap) (a : Addr) :
    (H.removeCell a).lookupCell a = none :=
  lookupCells_removeCells_self H.cells a

theorem Heap.lookupCell_removeCell_ne (H : Heap) (a b : Addr) (hab : b ≠ a) :
    (H.removeCell a).lookupCell b = H.lookupCell b :=
  lookupCells_removeCells_ne H.cells a b hab

theorem Heap.lookupCell_incref_self (H : Heap) (a : Addr) (c : Cell)
    (hl : H.lookupCell a = some c) :
    (H.incref (some a)).lookupCell a = some ⟨c.data, c.ref_count + 1⟩ := by
  simp [Heap.incref, hl, Heap.lookupCell_setCell_self]

theorem Heap.lookupCell_incref_ne (H : Heap) (n : Option Addr) (b : Addr)
    (hb : n ≠ some b) :
    (H.incref n).lookupCell b = H.lookupCell b := by
  match n with
  | none => rfl
  | some a =>
    cases hl : H.lookupCell a with
    | none => simp [Heap.incref, hl]
    | some c =>
      have hab : b ≠ a := by
        intro h
        exact hb (by rw [h])
      simp [Heap.incref, hl, Heap.lookupCell_setCell_ne _ _ _ _ hab]

/-! ## Payload preservation

Handle-lifecycle operations only ever touch `ref_count` and remove
cells; the payload (`data`) of a cell that is still live is the payload
it was constructed with. -/

/-- Every cell live in `H2` was already live in `H1` with the same
payload. -/
def DataPres (H1 H2 : Heap) : Prop :=
  ∀ (a : Addr) (c' : Cell), H2.lookupCell a = some c' →
    ∃ c : Cell, H1.lookupCell a = some c ∧ c'.data = c.data

theorem dataPres_refl (H : Heap) : DataPres H H :=
  fun _ c' h => ⟨c', h, rfl⟩

theorem dataPres_trans {H1 H2 H3 : Heap} (p : DataPres H1 H2)
    (q : DataPres H2 H3) : DataPres H1 H3 := by
  intro a c' hl
  obtain ⟨c2, hl2, hd2⟩ := q a c' hl
  obtain ⟨c1, hl1, hd1⟩ := p a c2 hl2
  exact ⟨c1, hl1, hd2 ▸ hd1⟩

theorem dataPres_setCell (H : Heap) (a : Addr) (c : Cell) (n : Int)
    (hl : H.lookupCell a = some c) :
    DataPres H (H.setCell a ⟨c.data, n⟩) := by
  intro b c' hl'
  by_cases hba : b = a
  · subst hba
    rw [Heap.lookupCell_setCell_self, hl] at hl'
    simp at hl'
    exact ⟨c, hl, by rw [← hl']⟩
  · rw [Heap.lookupCell_setCell_ne _ _ _ _ hba] at hl'
    exact ⟨c', hl', rfl⟩

theorem dataPres_removeCell (H : Heap) (a : Addr) :
    DataPres H (H.removeCell a) := by
  intro b c' hl'
  by_cases hba : b = a
  · subst hba
    rw [Heap.lookupCell_removeCell_self] at hl'
    exact absurd hl' (by simp)
  · rw [Heap.lookupCell_removeCell_ne _ _ _ hba] at hl'
    exact ⟨c', hl', rfl⟩

theorem dataPres_incref (H : Heap) (n : Option Addr) :
    DataPres H (H.incref n) := by
  match n with
  | none => exact dataPres_refl H
  | some a =>
    cases hl : H.lookupCell a with
    | none =>
      simp only [Heap.incref, hl]
      exact dataPres_refl H
    | some c =>
      simp only [Heap.incref, hl]
      exact dataPres_setCell H a c (c.ref_count + 1) hl

theorem dataPres_decrefWork (fuel : Nat) :
    ∀ (H : Heap) (work : List (Option Addr)), DataPres H (decrefWork fuel H work) := by
  induction fuel with
  | zero =>
    intro H work
    exact dataPres_refl H
  | succ fuel ih =>
    intro H work
    match work with
    | [] => exact dataPres_refl H
    | none :: rest =>
      simpa [decrefWork] using ih H rest
    | some a :: rest =>
      cases hl : H.lookupCell a with
      | none =>
        simpa [decrefWork, hl] using ih H rest
      | some c =>
        by_cases hz : c.ref_count - 1 = 0
        · have : decrefWork (fuel + 1) H (some a :: rest)
              = decrefWork fuel (H.removeCell a)
                  ((c.data.children.map Handle.node) ++ rest) := by
            simp [decrefWork, hl, hz]
          rw [this]
          exact dataPres_trans (dataPres_removeCell H a) (ih _ _)
        · have : decrefWork (fuel + 1) H (some a :: rest)
              = decrefWork fuel (H.setCell a ⟨c.data, c.ref_count - 1⟩) rest := by
            simp [decrefWork, hl, hz]
          rw [this]
          exact dataPres_trans (dataPres_setCell H a c (c.ref_count - 1) hl) (ih _ _)

theorem dataPres_decref (H : Heap) (h : Handle) :
    DataPres H (H.decref h).1 := by
  match hn : h.node with
  | none =>
    simp only [Heap.decref, hn]
    exact dataPres_refl H
  | some a =>
    cases hl : H.lookupCell a with
    | none =>
      simp only [Heap.decref, hn, hl]
      exact dataPres_refl H
    | some c =>
      by_cases hz : c.ref_count - 1 = 0
      · simp only [Heap.decref, hn, hl, if_pos hz]
        exact dataPres_trans (dataPres_removeCell H a) (dataPres_decrefWork _ _ _)
      · simp only [Heap.decref, hn, hl, if_neg hz]
        exact dataPres_setCell H a c (c.ref_count - 1) hl

theorem dataPres_runOp (H : Heap) (op : HandleOp) :
    DataPres H (runOp H op) := by
  match op with
  | .copy h => exact dataPres_incref H h.node
  | .assign t o =>
    exact dataPres_trans (dataPres_decref H t) (dataPres_incref _ o.node)
  | .selfAssign h =>
    exact dataPres_trans (dataPres_decref H h) (dataPres_incref _ _)
  | .destroy h => exact dataPres_decref H h
  | .dispatch h => exact dataPres_refl H

theorem dataPres_runOps (ops : List HandleOp) :
    ∀ H : Heap, DataPres H (runOps H ops) := by
  induction ops with
  | nil => exact fun H => dataPres_refl H
  | cons op rest ih =>
    intro H
    exact dataPres_trans (dataPres_runOp H op) (ih (runOp H op))

/-! ## Concrete scenarios -/

/-- A heap holding one freshly constructed `IntImm(5)` node, at
address 0 with share count 1. -/
def oneIntImmHeap : Heap := (Heap.empty.mkHandle (.IntImm 5)).1

/-- The sole handle to that node. -/
def oneIntImmHandle : Handle := (Heap.empty.mkHandle (.IntImm 5)).2

/-- A heap holding two independently constructed `IntImm(5)` nodes, at
addresses 0 and 1. -/
def twoIntImmHeap : Heap := (oneIntImmHeap.mkHandle (.IntImm 5)).1

/-- A handle to the second of the two `IntImm(5)` nodes. -/
def secondIntImmHandle : Handle := (oneIntImmHeap.mkHandle (.IntImm 5)).2

/-! ## The claims -/

/-- C1: for every node kind with required children (Cast; the binary
expressions; Not; Select; Load; Ramp; Let; LetStmt; AssertStmt; For;
Store; Allocate; Realize's body; Block's first; Pipeline's produce and
consume; every element of Call/PrintStmt/Provide args and of Realize
bounds), invoking the constructor with any required child handle empty
fails the precondition and produces no node. -/
theorem required_children_enforced :
    (∀ (t : HType) (v : Handle), v.defined = false → Cast.make t v = none)
  ∧ (∀ a b : Handle, a.defined = false ∨ b.defined = false → Add.make a b = none)
  ∧ (∀ a b : Handle, a.defined = false ∨ b.defined = false → Sub.make a b = none)
  ∧ (∀ a b : Handle, a.defined = false ∨ b.defined = false → Mul.make a b = none)
  ∧ (∀ a b : Handle, a.defined = false ∨ b.defined = false → Div.make a b = none)
  ∧ (∀ a b : Handle, a.defined = false ∨ b.defined = false → Mod.make a b = none)
  ∧ (∀ a b : Handle, a.defined = false ∨ b.defined = false → Min.make a b = none)
  ∧ (∀ a b : Handle, a.defined = false ∨ b.defined = false → Max.make a b = none)
  ∧ (∀ a b : Handle, a.defined = false ∨ b.defined = false → EQ.make a b = none)
  ∧ (∀ a b : Handle, a.defined = false ∨ b.defined = false → NE.make a b = none)
  ∧ (∀ a b : Handle, a.defined = false ∨ b.defined = false → LT.make a b = none)
  ∧ (∀ a b : Handle, a.defined = false ∨ b.defined = false → LE.make a b = none)
  ∧ (∀ a b : Handle, a.defined = false ∨ b.defined = false → GT.make a b = none)
  ∧ (∀ a b : Handle, a.defined = false ∨ b.defined = false → GE.make a b = none)
  ∧ (∀ a b : Handle, a.defined = false ∨ b.defined = false → And.make a b = none)
  ∧ (∀ a b : Handle, a.defined = false ∨ b.defined = false → Or.make a b = none)
  ∧ (∀ a : Handle, a.defined = false → Not.make a = none)
  ∧ (∀ c t f : Handle,
       c.defined = false ∨ t.defined = false ∨ f.defined = false →
       Select.make c t f = none)
  ∧ (∀ (t : HType) (b : String) (i : Handle), i.defined = false →
       Load.make t b i = none)
  ∧ (∀ (b s : Handle) (w : Int), b.defined = false ∨ s.defined = false →
       Ramp.make b s w = none)
  ∧ (∀ (n : String) (v b : Handle), v.defined = false ∨ b.defined = false →
       Let.make n v b = none)
  ∧ (∀ (n : String) (v b : Handle), v.defined = false ∨ b.defined = false →
       LetStmt.make n v b = none)
  ∧ (∀ (c : Handle) (m : String), c.defined = false → AssertStmt.make c m = none)
  ∧ (∀ (n : String) (m e : Handle) (f : ForType) (b : Handle),
       m.defined = false ∨ e.defined = false ∨ b.defined = false →
       For.make n m e f b = none)
  ∧ (∀ (b : String) (v i : Handle), v.defined = false ∨ i.defined = false →
       Store.make b v i = none)
  ∧ (∀ (buf : String) (t : HType) (s bod : Handle),
       s.defined = false ∨ bod.defined = false → Allocate.make buf t s bod = none)
  ∧ (∀ (buf : String) (t : HType) (bounds : List (Handle × Handle)) (bod : Handle),
       bod.defined = false → Realize.make buf t bounds bod = none)
  ∧ (∀ f r : Handle, f.defined = false → Block.make f r = none)
  ∧ (∀ (b : String) (p u c : Handle), p.defined = false ∨ c.defined = false →
       Pipeline.make b p u c = none)
  ∧ (∀ (t : HType) (b : String) (args : List Handle) (ct : CallType) (h0 : Handle),
       h0 ∈ args → h0.defined = false → Call.make t b args ct = none)
  ∧ (∀ (p : String) (args : List Handle) (h0 : Handle),
       h0 ∈ args → h0.defined = false → PrintStmt.make p args = none)
  ∧ (∀ (b : String) (v : Handle) (args : List Handle), v.defined = false →
       Provide.make b v args = none)
  ∧ (∀ (b : String) (v : Handle) (args : List Handle) (h0 : Handle),
       h0 ∈ args → h0.defined = false → Provide.make b v args = none)
  ∧ (∀ (buf : String) (t : HType) (bounds : List (Handle × Handle)) (bod : Handle)
       (pr : Handle × Handle), pr ∈ bounds →
       pr.1.defined = false ∨ pr.2.defined = false →
       Realize.make buf t bounds bod = none) :=
  ⟨fun t v hv => by simp [Cast.make, hv],
   fun a b h => by rcases h with h | h <;> simp [Add.make, h],
   fun a b h => by rcases h with h | h <;> simp [Sub.make, h],
   fun a b h => by rcases h with h | h <;> simp [Mul.make, h],
   fun a b h => by rcases h with h | h <;> simp [Div.make, h],
   fun a b h => by rcases h with h | h <;> simp [Mod.make, h],
   fun a b h => by rcases h with h | h <;> simp [Min.make, h],
   fun a b h => by rcases h with h | h <;> simp [Max.make, h],
   fun a b h => by rcases h with h | h <;> simp [EQ.make, h],
   fun a b h => by rcases h with h | h <;> simp [NE.make, h],
   fun a b h => by rcases h with h | h <;> simp [LT.make, h],
   fun a b h => by rcases h with h | h <;> simp [LE.make, h],
   fun a b h => by rcases h with h | h <;> simp [GT.make, h],
   fun a b h => by rcases h with h | h <;> simp [GE.make, h],
   fun a b h => by rcases h with h | h <;> simp [And.make, h],
   fun a b h => by rcases h with h | h <;> simp [Or.make, h],
   fun a h => by simp [Not.make, h],
   fun c t f h => by rcases h with h | h | h <;> simp [Select.make, h],
   fun t b i h => by simp [Load.make, h],
   fun b s w h => by rcases h with h | h <;> simp [Ramp.make, h],
   fun n v b h => by rcases h with h | h <;> simp [Let.make, h],
   fun n v b h => by rcases h with h | h <;> simp [LetStmt.make, h],
   fun c m h => by simp [AssertStmt.make, h],
   fun n m e f b h => by rcases h with h | h | h <;> simp [For.make, h],
   fun b v i h => by rcases h with h | h <;> simp [Store.make, h],
   fun buf t s bod h => by rcases h with h | h <;> simp [Allocate.make, h],
   fun buf t bounds bod h => by simp [Realize.make, h],
   fun f r h => by simp [Block.make, h],
   fun b p u c h => by rcases h with h | h <;> simp [Pipeline.make, h],
   fun t b args ct h0 hmem hdef => by
     have hall : args.all Handle.defined = false :=
       List.all_eq_false.mpr ⟨h0, hmem, by simp [hdef]⟩
     simp [Call.make, hall],
   fun p args h0 hmem hdef => by
     have hall : args.all Handle.defined = false :=
       List.all_eq_false.mpr ⟨h0, hmem, by simp [hdef]⟩
     simp [PrintStmt.make, hall],
   fun b v args hv => by simp [Provide.make, hv],
   fun b v args h0 hmem hdef => by
     have hall : args.all Handle.defined = false :=
       List.all_eq_false.mpr ⟨h0, hmem, by simp [hdef]⟩
     simp [Provide.make, hall],
   fun buf t bounds bod pr hmem hor => by
     have hall : bounds.all (fun q => q.1.defined && q.2.defined) = false :=
       List.all_eq_false.mpr ⟨pr, hmem, by rcases hor with h | h <;> simp [h]⟩
     simp [Realize.make, hall]⟩

/-- Witness for C1 at concrete inputs: an empty child handle makes
representative constructors fail. -/
theorem required_children_enforced_witness :
    Cast.make ⟨TypeKind.Int, 32, 1⟩ ⟨none⟩ = none ∧
    Add.make ⟨some 0⟩ ⟨none⟩ = none ∧
    Call.make ⟨TypeKind.Int, 32, 1⟩ "f" [⟨some 0⟩, ⟨none⟩] CallType.Image = none :=
  ⟨required_children_enforced.1 ⟨TypeKind.Int, 32, 1⟩ ⟨none⟩ rfl,
   (required_children_enforced.2.1 ⟨some 0⟩ ⟨none⟩ (Or.inr rfl)),
   (required_children_enforced.2.2.2.2.2.2.2.2.2.2.2.2.2.2.2.2.2.2.2.2.2.2.2.2.2.2.2.2.2.1
      ⟨TypeKind.Int, 32, 1⟩ "f" [⟨some 0⟩, ⟨none⟩] CallType.Image ⟨none⟩
      (by simp) rfl)⟩

/-- C3: for every concrete node kind in the catalog, constructing an
instance and invoking accept with a visitor routes to exactly the one
visitor operation corresponding to that kind; the recording visitor
records exactly the matching operation, for every kind. -/
theorem dispatch_exhaustive :
    (∀ v : Int, (NodeData.IntImm v).accept recorder = VisitOp.IntImm)
  ∧ (∀ v : Int, (NodeData.FloatImm v).accept recorder = VisitOp.FloatImm)
  ∧ (∀ (t : HType) (v : Handle), (NodeData.Cast t v).accept recorder = VisitOp.Cast)
  ∧ (∀ (t : HType) (n : String), (NodeData.Var t n).accept recorder = VisitOp.Var)
  ∧ (∀ a b : Handle, (NodeData.Add a b).accept recorder = VisitOp.Add)
  ∧ (∀ a b : Handle, (NodeData.Sub a b).accept recorder = VisitOp.Sub)
  ∧ (∀ a b : Handle, (NodeData.Mul a b).accept recorder = VisitOp.Mul)
  ∧ (∀ a b : Handle, (NodeData.Div a b).accept recorder = VisitOp.Div)
  ∧ (∀ a b : Handle, (NodeData.Mod a b).accept recorder = VisitOp.Mod)
  ∧ (∀ a b : Handle, (NodeData.Min a b).accept recorder = VisitOp.Min)
  ∧ (∀ a b : Handle, (NodeData.Max a b).accept recorder = VisitOp.Max)
  ∧ (∀ a b : Handle, (NodeData.EQ a b).accept recorder = VisitOp.EQ)
  ∧ (∀ a b : Handle, (NodeData.NE a b).accept recorder = VisitOp.NE)
  ∧ (∀ a b : Handle, (NodeData.LT a b).accept recorder = VisitOp.LT)
  ∧ (∀ a b : Handle, (NodeData.LE a b).accept recorder = VisitOp.LE)
  ∧ (∀ a b : Handle, (NodeData.GT a b).accept recorder = VisitOp.GT)
  ∧ (∀ a b : Handle, (NodeData.GE a b).accept recorder = VisitOp.GE)
  ∧ (∀ a b : Handle, (NodeData.And a b).accept recorder = VisitOp.And)
  ∧ (∀ a b : Handle, (NodeData.Or a b).accept recorder = VisitOp.Or)
  ∧ (∀ a : Handle, (NodeData.Not a).accept recorder = VisitOp.Not)
  ∧ (∀ c t f : Handle, (NodeData.Select c t f).accept recorder = VisitOp.Select)
  ∧ (∀ (t : HType) (b : String) (i : Handle),
       (NodeData.Load t b i).accept recorder = VisitOp.Load)
  ∧ (∀ (b s : Handle) (w : Int),
       (NodeData.Ramp b s w).accept recorder = VisitOp.Ramp)
  ∧ (∀ (t : HType) (b : String) (args : List Handle) (ct : CallType),
       (NodeData.Call t b args ct).accept recorder = VisitOp.Call)
  ∧ (∀ (n : String) (v b : Handle),
       (NodeData.Let n v b).accept recorder = VisitOp.Let)
  ∧ (∀ (n : String) (v b : Handle),
       (NodeData.LetStmt n v b).accept recorder = VisitOp.LetStmt)
  ∧ (∀ (p : String) (args : List Handle),
       (NodeData.PrintStmt p args).accept recorder = VisitOp.PrintStmt)
  ∧ (∀ (c : Handle) (m : String),
       (NodeData.AssertStmt c m).accept recorder = VisitOp.AssertStmt)
  ∧ (∀ (b : String) (p u c : Handle),
       (NodeData.Pipeline b p u c).accept recorder = VisitOp.Pipeline)
  ∧ (∀ (n : String) (m e : Handle) (f : ForType) (b : Handle),
       (NodeData.For n m e f b).accept recorder = VisitOp.For)
  ∧ (∀ (b : String) (v i : Handle),
       (NodeData.Store b v i).accept recorder = VisitOp.Store)
  ∧ (∀ (b : String) (v : Handle) (args : List Handle),
       (NodeData.Provide b v args).accept recorder = VisitOp.Provide)
  ∧ (∀ (buf : String) (t : HType) (s bod : Handle),
       (NodeData.Allocate buf t s bod).accept recorder = VisitOp.Allocate)
  ∧ (∀ (buf : String) (t : HType) (bounds : List (Handle × Handle)) (bod : Handle),
       (NodeData.Realize buf t bounds bod).accept recorder = VisitOp.Realize)
  ∧ (∀ f r : Handle, (NodeData.Block f r).accept recorder = VisitOp.Block) :=
  ⟨fun _ => rfl, fun _ => rfl, fun _ _ => rfl, fun _ _ => rfl,
   fun _ _ => rfl, fun _ _ => rfl, fun _ _ => rfl, fun _ _ => rfl,
   fun _ _ => rfl, fun _ _ => rfl, fun _ _ => rfl, fun _ _ => rfl,
   fun _ _ => rfl, fun _ _ => rfl, fun _ _ => rfl, fun _ _ => rfl,
   fun _ _ => rfl, fun _ _ => rfl, fun _ _ => rfl, fun _ => rfl,
   fun _ _ _ => rfl, fun _ _ _ => rfl, fun _ _ _ => rfl,
   fun _ _ _ _ => rfl, fun _ _ _ => rfl, fun _ _ _ => rfl,
   fun _ _ => rfl, fun _ _ => rfl, fun _ _ _ _ => rfl,
   fun _ _ _ _ _ => rfl, fun _ _ _ => rfl, fun _ _ _ => rfl,
   fun _ _ _ _ => rfl, fun _ _ _ _ => rfl, fun _ _ => rfl⟩

/-- C5: sameAs is reference identity — true exactly when the two
handles hold the same node pointer; two independently constructed
`IntImm(5)` nodes are structurally equal yet not sameAs, while a copy
of a handle is sameAs the original. -/
theorem sameAs_identity :
    (∀ h other : Handle, h.sameAs other = true ↔ h.node = other.node)
  ∧ oneIntImmHandle.sameAs secondIntImmHandle = false
  ∧ (twoIntImmHeap.lookupCell 0).map Cell.data = some (.IntImm 5)
  ∧ (twoIntImmHeap.lookupCell 1).map Cell.data = some (.IntImm 5)
  ∧ (twoIntImmHeap.copyHandle oneIntImmHandle).2.sameAs oneIntImmHandle = true := by
  refine ⟨?_, by decide, by decide, by decide, by decide⟩
  intro h other
  simp [Handle.sameAs]

/-- C6: a Pipeline with produce and consume defined constructs whether
update is empty (two-phase) or present; an empty produce or consume
always fails the precondition. -/
theorem pipeline_update_optional :
    (∀ (b : String) (p u c : Handle), p.defined = true → c.defined = true →
       Pipeline.make b p u c = some (.Pipeline b p u c))
  ∧ (∀ (b : String) (p c : Handle), p.defined = true → c.defined = true →
       Pipeline.make b p ⟨none⟩ c = some (.Pipeline b p ⟨none⟩ c))
  ∧ (∀ (b : String) (p u c : Handle), p.defined = false →
       Pipeline.make b p u c = none)
  ∧ (∀ (b : String) (p u c : Handle), c.defined = false →
       Pipeline.make b p u c = none) :=
  ⟨fun b p u c hp hc => by simp [Pipeline.make, hp, hc],
   fun b p c hp hc => by simp [Pipeline.make, hp, hc],
   fun b p u c hp => by simp [Pipeline.make, hp],
   fun b p u c hc => by simp [Pipeline.make, hc]⟩

/-- Witness for C6 at concrete inputs: both phases present succeeds
with and without update; empty produce and empty consume fail. -/
theorem pipeline_update_optional_witness :
    Pipeline.make "b" ⟨some 0⟩ ⟨none⟩ ⟨some 1⟩
      = some (.Pipeline "b" ⟨some 0⟩ ⟨none⟩ ⟨some 1⟩) ∧
    Pipeline.make "b" ⟨some 0⟩ ⟨some 2⟩ ⟨some 1⟩
      = some (.Pipeline "b" ⟨some 0⟩ ⟨some 2⟩ ⟨some 1⟩) ∧
    Pipeline.make "b" ⟨none⟩ ⟨some 2⟩ ⟨some 1⟩ = none ∧
    Pipeline.make "b" ⟨some 0⟩ ⟨some 2⟩ ⟨none⟩ = none :=
  ⟨pipeline_update_optional.2.1 "b" ⟨some 0⟩ ⟨some 1⟩ rfl rfl,
   pipeline_update_optional.1 "b" ⟨some 0⟩ ⟨some 2⟩ ⟨some 1⟩ rfl rfl,
   pipeline_update_optional.2.2.1 "b" ⟨none⟩ ⟨some 2⟩ ⟨some 1⟩ rfl,
   pipeline_update_optional.2.2.2 "b" ⟨some 0⟩ ⟨some 2⟩ ⟨none⟩ rfl⟩

/-- C7: for defined base and stride, Ramp construction fails exactly
for non-positive lane counts and succeeds for positive ones, storing
base, stride and the lane count unchanged. -/
theorem ramp_width_positive (b s : Handle) (w : Int)
    (hb : b.defined = true) (hs : s.defined = true) :
    (w ≤ 0 → Ramp.make b s w = none) ∧
    (1 ≤ w → Ramp.make b s w = some (.Ramp b s w)) := by
  constructor
  · intro hw
    have hd : decide (0 < w) = false := decide_eq_false (by omega)
    simp [Ramp.make, hb, hs, hd]
  · intro hw
    have hd : decide (0 < w) = true := decide_eq_true (by omega)
    simp [Ramp.make, hb, hs, hd]

/-- Witness for C7 at concrete inputs: width 4 succeeds, width -1 and
width 0 fail. -/
theorem ramp_width_positive_witness :
    Ramp.make ⟨some 0⟩ ⟨some 1⟩ 4 = some (.Ramp ⟨some 0⟩ ⟨some 1⟩ 4) ∧
    Ramp.make ⟨some 0⟩ ⟨some 1⟩ 0 = none ∧
    Ramp.make ⟨some 0⟩ ⟨some 1⟩ (-1) = none :=
  ⟨(ramp_width_positive ⟨some 0⟩ ⟨some 1⟩ 4 rfl rfl).2 (by norm_num),
   (ramp_width_positive ⟨some 0⟩ ⟨some 1⟩ 0 rfl rfl).1 (by norm_num),
   (ramp_width_positive ⟨some 0⟩ ⟨some 1⟩ (-1) rfl rfl).1 (by norm_num)⟩

/-- C8: the handle-level accept dispatches through the stored pointer
with no emptiness guard: an empty handle hits the null dereference (no
defined behaviour, `none` here); a defined handle with a live referent
always dispatches to the referent's kind. -/
theorem accept_requires_defined :
    (∀ (α : Type) (H : Heap) (h : Handle) (v : IRVisitor α),
       h.defined = false → H.acceptHandle h v = none)
  ∧ (∀ (α : Type) (H : Heap) (h : Handle) (v : IRVisitor α) (a : Addr) (c : Cell),
       h.node = some a → H.lookupCell a = some c →
       H.acceptHandle h v = some (c.data.accept v)) := by
  constructor
  · intro α H h v hdef
    have hn : h.node = none := by
      cases hn : h.node with
      | none => rfl
      | some a =>
        rw [Handle.defined, hn] at hdef
        simp at hdef
    simp [Heap.acceptHandle, hn]
  · intro α H h v a c hn hl
    simp [Heap.acceptHandle, hn, hl]

/-- Witness for C8 at concrete inputs: accept on an empty handle has no
defined result; accept on the live `IntImm(5)` handle dispatches to the
IntImm operation. -/
theorem accept_requires_defined_witness :
    oneIntImmHeap.acceptHandle ⟨none⟩ recorder = none ∧
    oneIntImmHeap.acceptHandle oneIntImmHandle recorder = some VisitOp.IntImm :=
  ⟨accept_requires_defined.1 VisitOp oneIntImmHeap ⟨none⟩ recorder rfl,
   accept_requires_defined.2 VisitOp oneIntImmHeap oneIntImmHandle recorder 0
     ⟨.IntImm 5, 1⟩ rfl (by decide)⟩

/-- C10: a zero-length argument list is accepted: Call, PrintStmt and
Provide with empty args, and Realize with empty bounds, construct
successfully when their other required fields are present. -/
theorem empty_args_accepted :
    (∀ (t : HType) (b : String) (ct : CallType),
       Call.make t b [] ct = some (.Call t b [] ct))
  ∧ (∀ p : String, PrintStmt.make p [] = some (.PrintStmt p []))
  ∧ (∀ (b : String) (v : Handle), v.defined = true →
       Provide.make b v [] = some (.Provide b v []))
  ∧ (∀ (buf : String) (t : HType) (bod : Handle), bod.defined = true →
       Realize.make buf t [] bod = some (.Realize buf t [] bod)) :=
  ⟨fun t b ct => by simp [Call.make],
   fun p => by simp [PrintStmt.make],
   fun b v hv => by simp [Provide.make, hv],
   fun buf t bod hbod => by simp [Realize.make, hbod]⟩

/-- Witness for C10 at concrete inputs. -/
theorem empty_args_accepted_witness :
    Provide.make "b" ⟨some 0⟩ [] = some (.Provide "b" ⟨some 0⟩ []) ∧
    Realize.make "b" ⟨TypeKind.Int, 32, 1⟩ [] ⟨some 0⟩
      = some (.Realize "b" ⟨TypeKind.Int, 32, 1⟩ [] ⟨some 0⟩) :=
  ⟨empty_args_accepted.2.2.1 "b" ⟨some 0⟩ rfl,
   empty_args_accepted.2.2.2 "b" ⟨TypeKind.Int, 32, 1⟩ ⟨some 0⟩ rfl⟩

/-- C2: fresh construction gives share count 1; copying a handle
increments the referent's count; destroying or reassigning decrements
the previous referent's count; the node is deallocated exactly when the
count reaches zero; and copying then dropping the original leaves the
copy on a live node, defined, with dispatch still reaching its kind. -/
theorem refcount_semantics :
    (∀ (H : Heap) (d : NodeData),
       (H.mkHandle d).2.node = some H.next ∧
       (H.mkHandle d).1.lookupCell H.next = some ⟨d, 1⟩)
  ∧ (∀ (H : Heap) (h : Handle) (a : Addr) (c : Cell),
       h.node = some a → H.lookupCell a = some c →
       (H.copyHandle h).2 = h ∧
       (H.copyHandle h).1.lookupCell a = some ⟨c.data, c.ref_count + 1⟩)
  ∧ (∀ (H : Heap) (h : Handle) (a : Addr) (c : Cell),
       h.node = some a → H.lookupCell a = some c → c.ref_count ≠ 1 →
       (H.destroyHandle h).lookupCell a = some ⟨c.data, c.ref_count - 1⟩)
  ∧ (∀ (H : Heap) (tgt other : Handle) (a : Addr) (c : Cell),
       tgt.node = some a → H.lookupCell a = some c → other.node ≠ some a →
       c.ref_count ≠ 1 →
       (H.assignHandle tgt other).1.lookupCell a = some ⟨c.data, c.ref_count - 1⟩ ∧
       (H.assignHandle tgt other).2 = ⟨other.node⟩)
  ∧ (∀ (H : Heap) (h : Handle) (a : Addr) (c : Cell),
       h.node = some a → H.lookupCell a = some c →
       ((H.destroyHandle h).lookupCell a = none ↔ c.ref_count = 1))
  ∧ (∀ (H : Heap) (h : Handle) (a : Addr) (c : Cell),
       h.node = some a → H.lookupCell a = some c → 1 ≤ c.ref_count →
       (H.copyHandle h).2.defined = true ∧
       ((H.copyHandle h).1.destroyHandle h).lookupCell a = some ⟨c.data, c.ref_count⟩ ∧
       (∀ (α : Type) (v : IRVisitor α),
          ((H.copyHandle h).1.destroyHandle h).acceptHandle (H.copyHandle h).2 v
            = some (c.data.accept v))) := by
  refine ⟨?_, ?_, ?_, ?_, ?_, ?_⟩
  · intro H d
    refine ⟨rfl, ?_⟩
    show ((Heap.mk (H.next + 1) ((H.next, ⟨d, 0⟩) :: H.cells)).incref
            (some H.next)).lookupCell H.next = some ⟨d, 1⟩
    have hl : (Heap.mk (H.next + 1) ((H.next, ⟨d, 0⟩) :: H.cells)).lookupCell H.next
        = some ⟨d, 0⟩ := by
      simp [Heap.lookupCell, lookupCells]
    rw [Heap.lookupCell_incref_self _ _ _ hl]
    norm_num
  · intro H h a c hn hl
    refine ⟨rfl, ?_⟩
    show (H.incref h.node).lookupCell a = some ⟨c.data, c.ref_count + 1⟩
    rw [hn]
    exact Heap.lookupCell_incref_self H a c hl
  · intro H h a c hn hl hc1
    have hz : ¬(c.ref_count - 1 = 0) := fun h0 => hc1 (by omega)
    simp only [Heap.destroyHandle, Heap.decref, hn, hl, if_neg hz]
    rw [Heap.lookupCell_setCell_self, hl]
    rfl
  · intro H tgt other a c hn hl hother hc1
    have hz : ¬(c.ref_count - 1 = 0) := fun h0 => hc1 (by omega)
    refine ⟨?_, rfl⟩
    show ((H.decref tgt).1.incref other.node).lookupCell a
        = some ⟨c.data, c.ref_count - 1⟩
    have h1 : (H.decref tgt).1 = H.setCell a ⟨c.data, c.ref_count - 1⟩ := by
      simp only [Heap.decref, hn, hl, if_neg hz]
    rw [h1, Heap.lookupCell_incref_ne _ _ _ hother,
        Heap.lookupCell_setCell_self, hl]
    rfl
  · intro H h a c hn hl
    constructor
    · intro hnone
      by_contra hc1
      have hz : ¬(c.ref_count - 1 = 0) := fun h0 => hc1 (by omega)
      simp only [Heap.destroyHandle, Heap.decref, hn, hl, if_neg hz] at hnone
      rw [Heap.lookupCell_setCell_self, hl] at hnone
      simp at hnone
    · intro hc1
      have hz : c.ref_count - 1 = 0 := by omega
      simp only [Heap.destroyHandle, Heap.decref, hn, hl, if_pos hz]
      cases hfin : (decrefWork H.fuelBound (H.removeCell a)
          (c.data.children.map Handle.node)).lookupCell a with
      | none => rfl
      | some c' =>
        obtain ⟨c0, hc0, _⟩ := dataPres_decrefWork _ _ _ a c' hfin
        rw [Heap.lookupCell_removeCell_self] at hc0
        cases hc0
  · intro H h a c hn hl hge
    have hl1 : (H.copyHandle h).1.lookupCell a = some ⟨c.data, c.ref_count + 1⟩ := by
      show (H.incref h.node).lookupCell a = some ⟨c.data, c.ref_count + 1⟩
      rw [hn]
      exact Heap.lookupCell_incref_self H a c hl
    have hz : ¬((⟨c.data, c.ref_count + 1⟩ : Cell).ref_count - 1 = 0) := by
      show ¬(c.ref_count + 1 - 1 = 0)
      omega
    have hfin : ((H.copyHandle h).1.destroyHandle h).lookupCell a
        = some ⟨c.data, c.ref_count⟩ := by
      simp only [Heap.destroyHandle, Heap.decref, hn, hl1, if_neg hz]
      rw [Heap.lookupCell_setCell_self, hl1]
      have harith : c.ref_count + 1 - 1 = c.ref_count := by omega
      simp [harith]
    refine ⟨?_, hfin, ?_⟩
    · show (⟨h.node⟩ : Handle).defined = true
      rw [hn]
      rfl
    · intro α v
      show ((H.copyHandle h).1.destroyHandle h).acceptHandle ⟨h.node⟩ v
          = some (c.data.accept v)
      rw [hn]
      simp [Heap.acceptHandle, hfin]

/-- Witness for C2 at concrete inputs: copying the sole handle to the
`IntImm(5)` node bumps its count to 2, and dropping the original
afterwards leaves the copy live, defined, and dispatching. -/
theorem refcount_semantics_witness :
    ((oneIntImmHeap.copyHandle oneIntImmHandle).2 = oneIntImmHandle ∧
     (oneIntImmHeap.copyHandle oneIntImmHandle).1.lookupCell 0
       = some ⟨.IntImm 5, 2⟩) ∧
    ((oneIntImmHeap.destroyHandle oneIntImmHandle).lookupCell 0 = none ↔
     (1 : Int) = 1) :=
  ⟨refcount_semantics.2.1 oneIntImmHeap oneIntImmHandle 0 ⟨.IntImm 5, 1⟩
     rfl (by decide),
   refcount_semantics.2.2.2.2.1 oneIntImmHeap oneIntImmHandle 0 ⟨.IntImm 5, 1⟩
     rfl (by decide)⟩

/-- C9 counterexample: self-assignment of the sole handle to a node
(share count 1) is not safe.  `operator=` decrefs first, which deletes
the node and nulls the pointer, so `node = other.node` copies the
nulled pointer: the handle comes out empty and the node deallocated,
contradicting the claim that `h = h` leaves `h` defined and its node
live with an unchanged count. -/
theorem selfAssign_sole_holder_counterexample :
    oneIntImmHandle.defined = true ∧
    oneIntImmHeap.lookupCell 0 = some ⟨.IntImm 5, 1⟩ ∧
    (oneIntImmHeap.selfAssignHandle oneIntImmHandle).2.defined = false ∧
    (oneIntImmHeap.selfAssignHandle oneIntImmHandle).1.lookupCell 0 = none := by
  decide

/-- C9 amended: self-assignment is safe only when the share count is at
least 2 — the handle and the referent's cell are then left exactly as
they were; when the handle is the sole holder (count 1), self-assignment
deallocates the node and leaves the handle empty. -/
theorem selfAssign_behavior :
    (∀ (H : Heap) (h : Handle) (a : Addr) (c : Cell),
       h.node = some a → H.lookupCell a = some c → c.ref_count ≠ 1 →
       (H.selfAssignHandle h).2 = h ∧
       (H.selfAssignHandle h).1.lookupCell a = some c)
  ∧ (∀ (H : Heap) (h : Handle) (a : Addr) (c : Cell),
       h.node = some a → H.lookupCell a = some c → c.ref_count = 1 →
       (H.selfAssignHandle h).2 = ⟨none⟩ ∧
       (H.selfAssignHandle h).1.lookupCell a = none) := by
  constructor
  · intro H h a c hn hl hc1
    have hz : ¬(c.ref_count - 1 = 0) := fun h0 => hc1 (by omega)
    have hdec : H.decref h = (H.setCell a ⟨c.data, c.ref_count - 1⟩, h) := by
      simp only [Heap.decref, hn, hl, if_neg hz]
    constructor
    · show (⟨(H.decref h).2.node⟩ : Handle) = h
      rw [hdec]
    · show ((H.decref h).1.incref (H.decref h).2.node).lookupCell a = some c
      rw [hdec, hn]
      have hl1 : (H.setCell a ⟨c.data, c.ref_count - 1⟩).lookupCell a
          = some ⟨c.data, c.ref_count - 1⟩ := by
        rw [Heap.lookupCell_setCell_self, hl]
        rfl
      rw [Heap.lookupCell_incref_self _ _ _ hl1]
      have harith : c.ref_count - 1 + 1 = c.ref_count := by omega
      simp [harith]
  · intro H h a c hn hl hc1
    have hz : c.ref_count - 1 = 0 := by omega
    have hdec : H.decref h
        = (decrefWork H.fuelBound (H.removeCell a)
            (c.data.children.map Handle.node), (⟨none⟩ : Handle)) := by
      simp only [Heap.decref, hn, hl, if_pos hz]
    constructor
    · show (⟨(H.decref h).2.node⟩ : Handle) = ⟨none⟩
      rw [hdec]
    · show ((H.decref h).1.incref (H.decref h).2.node).lookupCell a = none
      rw [hdec]
      show (decrefWork H.fuelBound (H.removeCell a)
          (c.data.children.map Handle.node)).lookupCell a = none
      cases hfin : (decrefWork H.fuelBound (H.removeCell a)
          (c.data.children.map Handle.node)).lookupCell a with
      | none => rfl
      | some c' =>
        obtain ⟨c0, hc0, _⟩ := dataPres_decrefWork _ _ _ a c' hfin
        rw [Heap.lookupCell_removeCell_self] at hc0
        cases hc0

/-- Witness for C9's amended claim at concrete inputs: with share count
2 the self-assignment leaves everything unchanged; with share count 1
it empties the handle and frees the node. -/
theorem selfAssign_behavior_witness :
    (((oneIntImmHeap.copyHandle oneIntImmHandle).1.selfAssignHandle
        oneIntImmHandle).2 = oneIntImmHandle ∧
     ((oneIntImmHeap.copyHandle oneIntImmHandle).1.selfAssignHandle
        oneIntImmHandle).1.lookupCell 0 = some ⟨.IntImm 5, 2⟩) ∧
    ((oneIntImmHeap.selfAssignHandle oneIntImmHandle).2 = ⟨none⟩ ∧
     (oneIntImmHeap.selfAssignHandle oneIntImmHandle).1.lookupCell 0 = none) :=
  ⟨selfAssign_behavior.1 (oneIntImmHeap.copyHandle oneIntImmHandle).1
     oneIntImmHandle 0 ⟨.IntImm 5, 2⟩ rfl (by decide) (by decide),
   selfAssign_behavior.2 oneIntImmHeap oneIntImmHandle 0 ⟨.IntImm 5, 1⟩
     rfl (by decide) (by decide)⟩

/-- C4 counterexample: nodes are not immutable in every field — the
`mutable int ref_count` field of `IRNode` is mutated after construction
by every handle copy: copying the sole handle to the `IntImm(5)` node
changes the node's `ref_count` field from 1 to 2. -/
theorem immutability_counterexample :
    oneIntImmHeap.lookupCell 0 = some ⟨.IntImm 5, 1⟩ ∧
    (oneIntImmHeap.copyHandle oneIntImmHandle).1.lookupCell 0
      = some ⟨.IntImm 5, 2⟩ := by
  decide

/-- C4 amended: every payload field of a node (everything except the
`ref_count` bookkeeping field) is immutable once constructed: after any
sequence of handle copies, assignments, self-assignments, destructions
and accept dispatches, every node still live carries exactly the
payload it was constructed with. -/
theorem payload_immutable (ops : List HandleOp) (H : Heap) (a : Addr) (c' : Cell)
    (hl' : (runOps H ops).lookupCell a = some c') :
    ∃ c : Cell, H.lookupCell a = some c ∧ c'.data = c.data :=
  dataPres_runOps ops H a c' hl'

/-- Witness for C4's amended claim at a concrete input: after a copy
(which does change `ref_count`), the surviving cell's payload is the
constructed one. -/
theorem payload_immutable_witness :
    ∃ c : Cell, oneIntImmHeap.lookupCell 0 = some c ∧
      (Cell.mk (.IntImm 5) 2).data = c.data :=
  payload_immutable [.copy oneIntImmHandle] oneIntImmHeap 0 ⟨.IntImm 5, 2⟩
    (by decide)

end HalideInternal
